import Mathlib

/-!
Verification of the boostgo trace package: a shallow embedding of the two
variants found in the source, the package-level globals API of trace.go and
the per-instance Tracer API of tracer.go, together with theorems settling
the specification claims about them.

Modelling conventions:
- A Go context is the chain of WithValue layers, newest first; Value finds
  the newest layer whose key matches.
- Go context keys are interface values, so the dynamic type of a key takes
  part in equality: a plain string key and a key of the named type Key
  never match each other. The embedding keeps that distinction, because
  tracer.go mixes the two.
- Go map iteration order is unspecified; it is modelled as insertion order.
- The process-wide mutable globals of trace.go (key registry, unique key
  set, generator) are passed explicitly as a Registry value and a
  generator function.
-/

namespace Trace

/-- Protocol names a transport surface (Go: a named string type). -/
abbrev Protocol := String

/-- Key names the slot a trace id is stored under (Go: a named string type). -/
abbrev Key := String

/-- Keys of a Go context, with their dynamic type: strKey is a plain Go
string (what key.String() produces), keyKey is a value of the named type
Key. In Go these compare unequal even for the same underlying text. -/
inductive CtxKey where
  | strKey (s : String)
  | keyKey (s : String)
  deriving DecidableEq, Repr

/-- Values stored in a context: a Go string, or some non-string value
(modelled by an integer, which is enough for the type-check claims). -/
inductive GoVal where
  | str (s : String)
  | int (n : Int)
  deriving DecidableEq, Repr

/-- A context carrier: the chain of WithValue layers, newest first. -/
abbrev Ctx := List (CtxKey × GoVal)

/-- Model of ctx.Value(k): the newest layer whose key matches, walking
outward. -/
def ctxValue : Ctx → CtxKey → Option GoVal
  | [], _ => none
  | (k2, v) :: rest, k => if k2 = k then some v else ctxValue rest k

/-- Model of context.WithValue(ctx, k, v): a new carrier layered on ctx. -/
def withValue (ctx : Ctx) (k : CtxKey) (v : GoVal) : Ctx := (k, v) :: ctx

/-- Model of the external dependency convert.String (boostgo convert):
universal conversion of a value to a string. A string is returned
unchanged; an integer is formatted in decimal. -/
def convertString : GoVal → String
  | .str s => s
  | .int n => toString n

/-- The wildcard protocol pre-registered by both variants. -/
def ProtocolAny : Protocol := "any"

/-- Default key of the package-level variant (trace.go). -/
def defaultKey : Key := "trace_id"

/-- Default key of the per-instance variant (tracer.go). -/
def tracerDefaultKey : Key := "bgo_trace_id"

/-- Association-list lookup, modelling map Load or Go map indexing. Both
variants only ever insert a protocol that is absent, so a protocol never
occurs twice and first-match lookup agrees with the Go map. -/
def lookupKey : List (Protocol × Key) → Protocol → Option Key
  | [], _ => none
  | (p2, k) :: rest, p => if p2 = p then some k else lookupKey rest p

/-- The package-level registry globals of trace.go: the protocol-to-key
map and the derived unique-key set, modelled in insertion order. -/
structure Registry where
  keys : List (Protocol × Key)
  uniqueKeys : List Key
  deriving DecidableEq, Repr

/-- Model of the init function of trace.go: protocol any is pre-registered
to defaultKey, which is also placed in the unique-key set. -/
def initRegistry : Registry :=
  { keys := [(ProtocolAny, defaultKey)], uniqueKeys := [defaultKey] }

/-- Model of RegisterProtocol from trace.go: a no-op when the protocol
already exists, otherwise store the mapping and add the key to the
unique-key set (idempotently). -/
def registerProtocol (r : Registry) (p : Protocol) (k : Key) : Registry :=
  match lookupKey r.keys p with
  | some _ => r
  | none =>
    { keys := r.keys ++ [(p, k)]
      uniqueKeys := if k ∈ r.uniqueKeys then r.uniqueKeys else r.uniqueKeys ++ [k] }

/-- The loop of TryGet from trace.go, iterating the protocol-to-key map: a
nil value, or a value whose convert.String image is empty, moves on to the
next key; otherwise the converted value is returned with found = true. -/
def tryGetLoop : List (Protocol × Key) → Ctx → String × Bool
  | [], _ => ("", false)
  | (_, key) :: rest, ctx =>
    match ctxValue ctx (.strKey key) with
    | none => tryGetLoop rest ctx
    | some v =>
      if convertString v = "" then tryGetLoop rest ctx
      else (convertString v, true)

/-- Model of TryGet from trace.go. -/
def tryGet (r : Registry) (ctx : Ctx) : String × Bool := tryGetLoop r.keys ctx

/-- Model of Get from trace.go: TryGet discarding the state. -/
def get (r : Registry) (ctx : Ctx) : String := (tryGet r ctx).1

/-- The write loop of Set (both variants): write id under every key of ks
with context.WithValue(ctx, key.String(), id). -/
def writeAll (ks : List Key) (id : String) (ctx : Ctx) : Ctx :=
  ks.foldl (fun c k => withValue c (.strKey k) (.str id)) ctx

/-- Model of Set from trace.go: return the carrier unchanged when TryGet
finds an id, else generate once and write under every unique key. The
process-wide generator is passed explicitly. -/
def set (r : Registry) (gen : Ctx → String) (ctx : Ctx) : Ctx :=
  if (tryGet r ctx).2 then ctx else writeAll r.uniqueKeys (gen ctx) ctx

/-- The write loop of SetID from trace.go, which iterates the
protocol-to-key pairs rather than the deduplicated unique-key set. -/
def writePairs (pairs : List (Protocol × Key)) (id : String) (ctx : Ctx) : Ctx :=
  pairs.foldl (fun c pk => withValue c (.strKey pk.2) (.str id)) ctx

/-- Model of SetID from trace.go. -/
def setID (r : Registry) (ctx : Ctx) (id : String) : Ctx :=
  if (tryGet r ctx).2 then ctx else writePairs r.keys id ctx

/-- Model of TryGetByProtocol from trace.go: single-key lookup under the
string key with a Go string type assertion; an unregistered protocol, a
nil value or a non-string value is not-found. -/
def tryGetByProtocol (r : Registry) (ctx : Ctx) (p : Protocol) : String × Bool :=
  match lookupKey r.keys p with
  | none => ("", false)
  | some k =>
    match ctxValue ctx (.strKey k) with
    | some (.str s) => (s, true)
    | _ => ("", false)

/-- Model of GetByProtocol from trace.go. -/
def getByProtocol (r : Registry) (ctx : Ctx) (p : Protocol) : String :=
  (tryGetByProtocol r ctx p).1

/-- Model of Exist from trace.go. -/
def exist (r : Registry) (ctx : Ctx) : Bool := (tryGet r ctx).2

/-- Model of ExistProtocol from trace.go: the lookup is always for the
wildcard protocol any. -/
def existProtocol (r : Registry) (ctx : Ctx) : Bool :=
  (tryGetByProtocol r ctx ProtocolAny).2

/-- The Tracer struct of tracer.go. The generator field is the plugged-in
generator function. -/
structure Tracer where
  master : Bool
  keys : List (Protocol × Key)
  uniqueKeys : List Key
  generator : Ctx → String

/-- Model of NewTracer from tracer.go: master = false, protocol any mapped
to the given key (the optional Go argument defaults to tracerDefaultKey).
The Go default generator produces a random UUID string; the model takes
the installed generator as a parameter. -/
def newTracer (gen : Ctx → String) (anyKey : Key) : Tracer :=
  { master := false
    keys := [(ProtocolAny, anyKey)]
    uniqueKeys := [anyKey]
    generator := gen }

/-- Model of the IAmMaster method of tracer.go. -/
def Tracer.iAmMaster (t : Tracer) (m : Bool) : Tracer := { t with master := m }

/-- Model of the RegisterProtocol method of tracer.go: a no-op when the
protocol already exists, otherwise add the key to the unique-key set and
store the mapping. -/
def Tracer.registerProtocol (t : Tracer) (p : Protocol) (k : Key) : Tracer :=
  match lookupKey t.keys p with
  | some _ => t
  | none =>
    { t with
      keys := t.keys ++ [(p, k)]
      uniqueKeys := if k ∈ t.uniqueKeys then t.uniqueKeys else t.uniqueKeys ++ [k] }

/-- Model of the TryGet method of tracer.go (lines 131-147), translated
faithfully: the loop body looks the value up with ctx.Value(key), that is
under the key of named type Key, not under key.String(), and every branch
of the body returns (nil gives an immediate not-found, a non-string gives
an immediate not-found, a string is returned found). The loop therefore
never advances past its first iterated key; an empty map falls through to
not-found. Go map iteration order is modelled as list order. -/
def Tracer.tryGet (t : Tracer) (ctx : Ctx) : String × Bool :=
  match t.keys with
  | [] => ("", false)
  | (_, key) :: _ =>
    match ctxValue ctx (.keyKey key) with
    | none => ("", false)
    | some (.str s) => (s, true)
    | some _ => ("", false)

/-- Model of the Get method of tracer.go. -/
def Tracer.get (t : Tracer) (ctx : Ctx) : String := (t.tryGet ctx).1

/-- Model of the Set method of tracer.go: gated by the master flag; the
carrier is returned unchanged when TryGet reports found; otherwise the
generator runs once and the id is written under every unique key with
context.WithValue(ctx, key.String(), traceID). -/
def Tracer.set (t : Tracer) (ctx : Ctx) : Ctx :=
  if !t.master then ctx
  else if (t.tryGet ctx).2 then ctx
  else writeAll t.uniqueKeys (t.generator ctx) ctx

/-- Model of the TryGetByProtocol method of tracer.go: this lookup does
use key.String(), with a Go string type assertion. -/
def Tracer.tryGetByProtocol (t : Tracer) (ctx : Ctx) (p : Protocol) : String × Bool :=
  match lookupKey t.keys p with
  | none => ("", false)
  | some k =>
    match ctxValue ctx (.strKey k) with
    | some (.str s) => (s, true)
    | _ => ("", false)

/-- Model of the GetByProtocol method of tracer.go. -/
def Tracer.getByProtocol (t : Tracer) (ctx : Ctx) (p : Protocol) : String :=
  (t.tryGetByProtocol ctx p).1

/-- Model of the Exist method of tracer.go. -/
def Tracer.exist (t : Tracer) (ctx : Ctx) : Bool := (t.tryGet ctx).2

/-- Model of the ExistProtocol method of tracer.go: the lookup is always
for the wildcard protocol any. -/
def Tracer.existProtocol (t : Tracer) (ctx : Ctx) : Bool :=
  (t.tryGetByProtocol ctx ProtocolAny).2

/-- Well-formedness of the package registry, established by init and
preserved by RegisterProtocol: some protocol is registered, and every
registered key is in the unique-key set. -/
abbrev RegistryWF (r : Registry) : Prop :=
  r.keys ≠ [] ∧ ∀ pk ∈ r.keys, pk.2 ∈ r.uniqueKeys

/-- Well-formedness of a Tracer, established by NewTracer and preserved by
RegisterProtocol: some protocol is registered, and every registered key is
in the unique-key set. -/
abbrev TracerWF (t : Tracer) : Prop :=
  t.keys ≠ [] ∧ ∀ pk ∈ t.keys, pk.2 ∈ t.uniqueKeys

theorem registryWF_init : RegistryWF initRegistry := by decide

theorem registryWF_registerProtocol (r : Registry) (p : Protocol) (k : Key)
    (h : RegistryWF r) : RegistryWF (registerProtocol r p k) := by
  unfold registerProtocol
  cases hl : lookupKey r.keys p with
  | some k2 => exact h
  | none =>
    refine ⟨by simp, ?_⟩
    intro pk hpk
    simp only [List.mem_append] at hpk
    rcases hpk with hmem | hmem
    · have := h.2 pk hmem
      by_cases hk : k ∈ r.uniqueKeys <;> simp [hk, this]
    · simp at hmem
      subst hmem
      by_cases hk : k ∈ r.uniqueKeys <;> simp [hk]

theorem tracerWF_newTracer (gen : Ctx → String) (anyKey : Key) :
    TracerWF (newTracer gen anyKey) := by
  refine ⟨by simp [newTracer], ?_⟩
  intro pk hpk
  simp [newTracer] at hpk ⊢
  simp [hpk]

theorem tracerWF_registerProtocol (t : Tracer) (p : Protocol) (k : Key)
    (h : TracerWF t) : TracerWF (Tracer.registerProtocol t p k) := by
  unfold Tracer.registerProtocol
  cases hl : lookupKey t.keys p with
  | some k2 => exact h
  | none =>
    refine ⟨by simp, ?_⟩
    intro pk hpk
    simp only [List.mem_append] at hpk
    rcases hpk with hmem | hmem
    · have := h.2 pk hmem
      by_cases hk : k ∈ t.uniqueKeys <;> simp [hk, this]
    · simp at hmem
      subst hmem
      by_cases hk : k ∈ t.uniqueKeys <;> simp [hk]

theorem lookupKey_mem (pairs : List (Protocol × Key)) (p : Protocol) (k : Key)
    (h : lookupKey pairs p = some k) : (p, k) ∈ pairs := by
  induction pairs with
  | nil => simp [lookupKey] at h
  | cons pk rest ih =>
    obtain ⟨p2, k2⟩ := pk
    by_cases hp : p2 = p
    · subst hp
      simp [lookupKey] at h
      simp [h]
    · simp [lookupKey, hp] at h
      simp [ih h]

theorem lookupKey_append_single (pairs : List (Protocol × Key)) (p : Protocol) (k : Key)
    (h : lookupKey pairs p = none) : lookupKey (pairs ++ [(p, k)]) p = some k := by
  induction pairs with
  | nil => simp [lookupKey]
  | cons pk rest ih =>
    obtain ⟨p2, k2⟩ := pk
    by_cases hp : p2 = p
    · simp [lookupKey, hp] at h
    · simp [lookupKey, hp] at h ⊢
      exact ih h

theorem ctxValue_writeAll_of_not_mem (ks : List Key) (id : String) (ctx : Ctx) (k : Key)
    (h : k ∉ ks) : ctxValue (writeAll ks id ctx) (.strKey k) = ctxValue ctx (.strKey k) := by
  induction ks generalizing ctx with
  | nil => rfl
  | cons k0 rest ih =>
    simp only [List.mem_cons, not_or] at h
    show ctxValue (writeAll rest id (withValue ctx (.strKey k0) (.str id))) (.strKey k) = _
    rw [ih _ h.2]
    have hne : ¬ (CtxKey.strKey k0 = CtxKey.strKey k) := by
      simp only [CtxKey.strKey.injEq]
      exact fun hc => h.1 hc.symm
    simp [withValue, ctxValue, hne]

theorem ctxValue_writeAll_of_mem (ks : List Key) (id : String) (ctx : Ctx) (k : Key)
    (h : k ∈ ks) : ctxValue (writeAll ks id ctx) (.strKey k) = some (.str id) := by
  induction ks generalizing ctx with
  | nil => simp at h
  | cons k0 rest ih =>
    show ctxValue (writeAll rest id (withValue ctx (.strKey k0) (.str id))) (.strKey k) = _
    by_cases hr : k ∈ rest
    · exact ih _ hr
    · have hk : k = k0 := by
        rcases List.mem_cons.mp h with h0 | h0
        · exact h0
        · exact absurd h0 hr
      subst hk
      rw [ctxValue_writeAll_of_not_mem rest id _ k hr]
      simp [withValue, ctxValue]

theorem writePairs_eq_writeAll (pairs : List (Protocol × Key)) (id : String) (ctx : Ctx) :
    writePairs pairs id ctx = writeAll (pairs.map Prod.snd) id ctx := by
  induction pairs generalizing ctx with
  | nil => rfl
  | cons pk rest ih =>
    show writePairs rest id (withValue ctx (.strKey pk.2) (.str id)) = _
    rw [ih]
    rfl

theorem tryGetLoop_nil_ctx (pairs : List (Protocol × Key)) : tryGetLoop pairs [] = ("", false) := by
  induction pairs with
  | nil => rfl
  | cons pk rest ih =>
    obtain ⟨p, k⟩ := pk
    simp [tryGetLoop, ctxValue, ih]

theorem tryGetLoop_found_ne (pairs : List (Protocol × Key)) (ctx : Ctx)
    (h : (tryGetLoop pairs ctx).2 = true) : (tryGetLoop pairs ctx).1 ≠ "" := by
  induction pairs with
  | nil => simp [tryGetLoop] at h
  | cons pk rest ih =>
    obtain ⟨p, k⟩ := pk
    cases hv : ctxValue ctx (.strKey k) with
    | none =>
      have e : tryGetLoop ((p, k) :: rest) ctx = tryGetLoop rest ctx := by
        simp [tryGetLoop, hv]
      rw [e] at h ⊢
      exact ih h
    | some v =>
      have e : tryGetLoop ((p, k) :: rest) ctx
          = if convertString v = "" then tryGetLoop rest ctx else (convertString v, true) := by
        simp [tryGetLoop, hv]
      rw [e] at h ⊢
      by_cases hc : convertString v = ""
      · rw [if_pos hc] at h ⊢
        exact ih h
      · rw [if_neg hc]
        exact hc

theorem tryGetLoop_not_found (pairs : List (Protocol × Key)) (ctx : Ctx)
    (h : (tryGetLoop pairs ctx).2 = false) : (tryGetLoop pairs ctx).1 = "" := by
  induction pairs with
  | nil => rfl
  | cons pk rest ih =>
    obtain ⟨p, k⟩ := pk
    cases hv : ctxValue ctx (.strKey k) with
    | none =>
      have e : tryGetLoop ((p, k) :: rest) ctx = tryGetLoop rest ctx := by
        simp [tryGetLoop, hv]
      rw [e] at h ⊢
      exact ih h
    | some v =>
      have e : tryGetLoop ((p, k) :: rest) ctx
          = if convertString v = "" then tryGetLoop rest ctx else (convertString v, true) := by
        simp [tryGetLoop, hv]
      rw [e] at h ⊢
      by_cases hc : convertString v = ""
      · rw [if_pos hc] at h ⊢
        exact ih h
      · rw [if_neg hc] at h
        simp at h

theorem tryGetLoop_const (pairs : List (Protocol × Key)) (ctx : Ctx) (id : String)
    (h : ∀ pk ∈ pairs, ctxValue ctx (.strKey pk.2) = some (.str id)) :
    tryGetLoop pairs ctx = if pairs = [] ∨ id = "" then ("", false) else (id, true) := by
  induction pairs with
  | nil => simp [tryGetLoop]
  | cons pk rest ih =>
    obtain ⟨p, k⟩ := pk
    have hhead : ctxValue ctx (.strKey k) = some (.str id) := h (p, k) (List.mem_cons_self _ _)
    have hrest : ∀ pk ∈ rest, ctxValue ctx (.strKey pk.2) = some (.str id) := by
      intro pk hpk
      exact h pk (List.mem_cons_of_mem _ hpk)
    simp only [tryGetLoop, hhead]
    by_cases hid : id = ""
    · simp [convertString, hid, ih hrest]
    · simp [convertString, hid]

theorem tracer_tryGet_nil_ctx (t : Tracer) : t.tryGet [] = ("", false) := by
  unfold Tracer.tryGet
  cases t.keys with
  | nil => rfl
  | cons pk rest =>
    obtain ⟨p, k⟩ := pk
    simp [ctxValue]

/-- A concrete generator returning the fixed identifier "g". -/
def gen0 : Ctx → String := fun _ => "g"

/-- A concrete Tracer: NewTracer with the default key, switched to master. -/
def tracer0 : Tracer := (newTracer gen0 tracerDefaultKey).iAmMaster true

/-- A concrete Tracer with two registered protocols: any mapped to k1 and
http mapped to k2 (map iteration reaching k1 first). -/
def tracer1 : Tracer := (newTracer gen0 "k1").registerProtocol "http" "k2"

/-- The package registry with protocol http registered to key k2 beside
the pre-registered any mapping. -/
def registry1 : Registry := registerProtocol initRegistry "http" "k2"

/-- A generator producing different identifiers on different carriers, as
the default UUID generator does on successive calls. -/
def gen2 : Ctx → String := fun c => if c = [] then "a" else "b"

/-- A concrete master Tracer carrying the generator gen2. -/
def tracer2 : Tracer := (newTracer gen2 tracerDefaultKey).iAmMaster true

/-- Claim C1: the claim requires TryGet to continue scanning past a
registered key holding no value in both variants. The per-instance
Tracer.TryGet violates it: with keys k1 and k2 registered and a value
present only under k2 (stored under the Key-typed key, the type
Tracer.TryGet itself looks up), the nil value under k1 ends the whole
scan and TryGet reports not-found. The package-level TryGet on the
mirror-image carrier does continue past the miss and finds the value. -/
theorem c1_tracer_tryGet_stops_at_first_miss :
    tracer1.keys = [("any", "k1"), ("http", "k2")] ∧
    ctxValue [(CtxKey.keyKey "k2", GoVal.str "id-2")] (CtxKey.keyKey "k2")
      = some (GoVal.str "id-2") ∧
    Tracer.tryGet tracer1 [(CtxKey.keyKey "k2", GoVal.str "id-2")] = ("", false) ∧
    tryGet registry1 [(CtxKey.strKey "k2", GoVal.str "id-2")] = ("id-2", true) := by
  refine ⟨by decide, by decide, by decide, by decide⟩

/-- Claim C2: the claim requires Set composed with Set to keep the first
identifier, the second call observing it via TryGet. The per-instance
variant violates it: Tracer.Set stores under string keys while
Tracer.TryGet looks up under the Key-typed key, so the second Set cannot
see the first identifier "a", invokes the generator again and layers the
new identifier "b" on top. -/
theorem c2_tracer_set_not_idempotent :
    tracer2.tryGetByProtocol (tracer2.set []) "any" = ("a", true) ∧
    tracer2.tryGetByProtocol (tracer2.set (tracer2.set [])) "any" = ("b", true) ∧
    ("a" : String) ≠ "b" := by
  refine ⟨by decide, by decide, by decide⟩

/-- Claim C3: per-instance master gating. With master=false, Tracer.Set
returns every carrier unchanged with nothing written. With master=true
and a generator producing a non-empty identifier, Tracer.Set on the empty
carrier stores that one generated identifier under every registered key. -/
theorem c3_tracer_master_gating (t : Tracer) (c : Ctx) (hwf : TracerWF t) :
    (t.master = false → t.set c = c) ∧
    (t.master = true → t.generator [] ≠ "" →
      ∀ p k, (p, k) ∈ t.keys →
        ctxValue (t.set []) (CtxKey.strKey k) = some (GoVal.str (t.generator []))) := by
  constructor
  · intro hm
    simp [Tracer.set, hm]
  · intro hm _hg p k hpk
    have h0 : t.tryGet [] = ("", false) := tracer_tryGet_nil_ctx t
    simp only [Tracer.set, hm, h0, Bool.not_true, Bool.false_eq_true, if_false]
    exact ctxValue_writeAll_of_mem _ _ _ _ (hwf.2 (p, k) hpk)

/-- Witness for claim C3: the concrete master tracer with generator g
stores the non-empty identifier "g" under its registered default key. -/
theorem c3_witness :
    ctxValue (tracer0.set []) (CtxKey.strKey "bgo_trace_id") = some (GoVal.str "g") :=
  (c3_tracer_master_gating tracer0 [] (by decide)).2 (by decide) (by decide)
    ProtocolAny "bgo_trace_id" (by decide)

/-- A concrete Tracer whose single registered key is trace_id, matching
the key of the initial package registry. -/
def tracer4 : Tracer := newTracer gen0 defaultKey

/-- Claim C4 counterexample: under the package-level TryGet, a registered
key holding the non-string value 42 is not treated as not-found; the value
is converted by convert.String and reported found as the string 42. -/
theorem c4_counterexample :
    tryGet initRegistry [(CtxKey.strKey "trace_id", GoVal.int 42)] = ("42", true) := by
  decide

/-- Claim C4 as amended: TryGetByProtocol in both variants and the
per-instance Tracer.TryGet report not-found on a non-string value under
the registered key, with no error raised; the package-level TryGet is the
exception, converting the value with convert.String and reporting it
found when the conversion is non-empty, as the final conjunct shows for
the integer 42. -/
theorem c4_nonstring_lookups (r : Registry) (t : Tracer) (c : Ctx) (p : Protocol)
    (k : Key) (n : Int) :
    (lookupKey r.keys p = some k → ctxValue c (CtxKey.strKey k) = some (GoVal.int n) →
      tryGetByProtocol r c p = ("", false)) ∧
    (lookupKey t.keys p = some k → ctxValue c (CtxKey.strKey k) = some (GoVal.int n) →
      t.tryGetByProtocol c p = ("", false)) ∧
    (∀ rest, t.keys = (p, k) :: rest → ctxValue c (CtxKey.keyKey k) = some (GoVal.int n) →
      t.tryGet c = ("", false)) ∧
    tryGet initRegistry [(CtxKey.strKey "trace_id", GoVal.int 42)] = ("42", true) := by
  refine ⟨?_, ?_, ?_, by decide⟩
  · intro hl hv
    simp [tryGetByProtocol, hl, hv]
  · intro hl hv
    simp [Tracer.tryGetByProtocol, hl, hv]
  · intro rest hk hv
    simp [Tracer.tryGet, hk, hv]

/-- Witness for claim C4: with the integer 7 stored under the trace_id
key in both key representations, the package TryGetByProtocol, the tracer
TryGetByProtocol and the tracer TryGet all report not-found, while the
package TryGet converts and finds 42 as a string. -/
theorem c4_witness :
    tryGetByProtocol initRegistry
      [(CtxKey.strKey "trace_id", GoVal.int 7), (CtxKey.keyKey "trace_id", GoVal.int 7)]
      "any" = ("", false) ∧
    tracer4.tryGetByProtocol
      [(CtxKey.strKey "trace_id", GoVal.int 7), (CtxKey.keyKey "trace_id", GoVal.int 7)]
      "any" = ("", false) ∧
    tracer4.tryGet
      [(CtxKey.strKey "trace_id", GoVal.int 7), (CtxKey.keyKey "trace_id", GoVal.int 7)]
      = ("", false) ∧
    tryGet initRegistry [(CtxKey.strKey "trace_id", GoVal.int 42)] = ("42", true) := by
  have h := c4_nonstring_lookups initRegistry tracer4
    [(CtxKey.strKey "trace_id", GoVal.int 7), (CtxKey.keyKey "trace_id", GoVal.int 7)]
    "any" "trace_id" 7
  exact ⟨h.1 (by decide) (by decide), h.2.1 (by decide) (by decide),
    h.2.2.1 [] (by decide) (by decide), h.2.2.2⟩

/-- Claim C5 counterexample: the round-trip fails on a carrier that
already holds an identifier, because SetID never overwrites: writing the
identifier new over a carrier already holding old reads back old. -/
theorem c5_counterexample :
    get initRegistry
      (setID initRegistry [(CtxKey.strKey "trace_id", GoVal.str "old")] "new") = "old" ∧
    ("old" : String) ≠ "new" := by
  refine ⟨by decide, by decide⟩

/-- Claim C5 as amended: the round-trip holds for carriers on which no
identifier is yet found: when TryGet reports not-found, SetID writes the
identifier under the key of every registered protocol and Get reads it
back. -/
theorem c5_roundtrip (r : Registry) (c : Ctx) (id : String) (hwf : RegistryWF r)
    (h : (tryGet r c).2 = false) : get r (setID r c id) = id := by
  have hset : setID r c id = writePairs r.keys id c := by
    simp [setID, h]
  have hall : ∀ pk ∈ r.keys, ctxValue (writePairs r.keys id c) (CtxKey.strKey pk.2)
      = some (GoVal.str id) := by
    intro pk hpk
    rw [writePairs_eq_writeAll]
    exact ctxValue_writeAll_of_mem _ _ _ _ (List.mem_map_of_mem Prod.snd hpk)
  have hloop := tryGetLoop_const r.keys (writePairs r.keys id c) id hall
  rw [get, tryGet, hset, hloop]
  by_cases hid : id = "" <;> simp [hwf.1, hid]

/-- Witness for claim C5: writing the identifier abc on the empty carrier
through the initial registry reads back abc. -/
theorem c5_witness : get initRegistry (setID initRegistry [] "abc") = "abc" :=
  c5_roundtrip initRegistry [] "abc" (by decide) (by decide)

/-- Claim C6: multi-key fan-out in the package-level variant. With two
protocols registered to keys k1 and k2, Set on the empty carrier produces
a carrier from which TryGetByProtocol returns found=true with the same
generated identifier for both protocols. -/
theorem c6_multikey_fanout (r : Registry) (gen : Ctx → String) (p1 p2 : Protocol)
    (k1 k2 : Key) (hwf : RegistryWF r)
    (h1 : lookupKey r.keys p1 = some k1) (h2 : lookupKey r.keys p2 = some k2) :
    tryGetByProtocol r (set r gen []) p1 = (gen [], true) ∧
    tryGetByProtocol r (set r gen []) p2 = (gen [], true) := by
  have hset : set r gen [] = writeAll r.uniqueKeys (gen []) [] := by
    simp [set, tryGet, tryGetLoop_nil_ctx]
  have hv1 : ctxValue (writeAll r.uniqueKeys (gen []) []) (CtxKey.strKey k1)
      = some (GoVal.str (gen [])) :=
    ctxValue_writeAll_of_mem _ _ _ _ (hwf.2 (p1, k1) (lookupKey_mem _ _ _ h1))
  have hv2 : ctxValue (writeAll r.uniqueKeys (gen []) []) (CtxKey.strKey k2)
      = some (GoVal.str (gen [])) :=
    ctxValue_writeAll_of_mem _ _ _ _ (hwf.2 (p2, k2) (lookupKey_mem _ _ _ h2))
  constructor
  · simp [tryGetByProtocol, h1, hset, hv1]
  · simp [tryGetByProtocol, h2, hset, hv2]

/-- The end-to-end registry of the spec scenario: http mapped to
X-Trace-Id and kafka mapped to kafka-trace beside the initial mapping. -/
def registry6 : Registry :=
  registerProtocol (registerProtocol initRegistry "http" "X-Trace-Id") "kafka" "kafka-trace"

/-- Witness for claim C6: after Set on the empty carrier, the http and
kafka protocols both read back the one generated identifier g. -/
theorem c6_witness :
    tryGetByProtocol registry6 (set registry6 gen0 []) "http" = ("g", true) ∧
    tryGetByProtocol registry6 (set registry6 gen0 []) "kafka" = ("g", true) :=
  c6_multikey_fanout registry6 gen0 "http" "kafka" "X-Trace-Id" "kafka-trace"
    (by decide) (by decide) (by decide)

theorem registerProtocol_registered (r : Registry) (p : Protocol) (k k0 : Key)
    (h : lookupKey r.keys p = some k0) : registerProtocol r p k = r := by
  simp [registerProtocol, h]

theorem tracer_registerProtocol_registered (t : Tracer) (p : Protocol) (k k0 : Key)
    (h : lookupKey t.keys p = some k0) : Tracer.registerProtocol t p k = t := by
  simp [Tracer.registerProtocol, h]

/-- Claim C7: first registration wins in both variants. For a protocol p
not yet registered, registering p to k1 and then to k2 leaves p mapped to
k1: the second registration finds p present and is a no-op. -/
theorem c7_first_registration_wins (r : Registry) (t : Tracer) (p : Protocol) (k1 k2 : Key)
    (hr : lookupKey r.keys p = none) (ht : lookupKey t.keys p = none) :
    lookupKey (registerProtocol (registerProtocol r p k1) p k2).keys p = some k1 ∧
    lookupKey (Tracer.registerProtocol (Tracer.registerProtocol t p k1) p k2).keys p
      = some k1 := by
  constructor
  · have h1 : (registerProtocol r p k1).keys = r.keys ++ [(p, k1)] := by
      simp [registerProtocol, hr]
    have h1l : lookupKey (registerProtocol r p k1).keys p = some k1 := by
      rw [h1]
      exact lookupKey_append_single _ _ _ hr
    rw [registerProtocol_registered _ _ _ _ h1l]
    exact h1l
  · have h1 : (Tracer.registerProtocol t p k1).keys = t.keys ++ [(p, k1)] := by
      simp [Tracer.registerProtocol, ht]
    have h1l : lookupKey (Tracer.registerProtocol t p k1).keys p = some k1 := by
      rw [h1]
      exact lookupKey_append_single _ _ _ ht
    rw [tracer_registerProtocol_registered _ _ _ _ h1l]
    exact h1l

/-- Witness for claim C7: registering http to A and then to B leaves http
mapped to A in both the package registry and a Tracer. -/
theorem c7_witness :
    lookupKey (registerProtocol (registerProtocol initRegistry "http" "A") "http" "B").keys
      "http" = some "A" ∧
    lookupKey (Tracer.registerProtocol (Tracer.registerProtocol tracer0 "http" "A") "http"
      "B").keys "http" = some "A" :=
  c7_first_registration_wins initRegistry tracer0 "http" "A" "B" (by decide) (by decide)

/-- Claim C8: monotonic presence. When TryGet already reports found on a
carrier, the package-level Set and SetID return the carrier unchanged for
every identifier, and the per-instance Tracer.Set returns it unchanged as
well, so a present identifier is never cleared or replaced. -/
theorem c8_monotonic_presence (r : Registry) (gen : Ctx → String) (t : Tracer) (c : Ctx)
    (id : String) :
    ((tryGet r c).2 = true → set r gen c = c ∧ setID r c id = c) ∧
    ((t.tryGet c).2 = true → t.set c = c) := by
  constructor
  · intro h
    exact ⟨by simp [set, h], by simp [setID, h]⟩
  · intro h
    by_cases hm : t.master <;> simp [Tracer.set, hm, h]

/-- A carrier holding an identifier visible to both variants: x under the
package string key and y under the Key-typed key the tracer looks up. -/
def ctx8 : Ctx :=
  [(CtxKey.strKey "trace_id", GoVal.str "x"), (CtxKey.keyKey "bgo_trace_id", GoVal.str "y")]

/-- Witness for claim C8: on a carrier where both variants find an
identifier, Set and SetID of the package variant and Set of the Tracer
variant all return the carrier unchanged. -/
theorem c8_witness :
    (set initRegistry gen0 ctx8 = ctx8 ∧ setID initRegistry ctx8 "z" = ctx8) ∧
    tracer0.set ctx8 = ctx8 :=
  ⟨(c8_monotonic_presence initRegistry gen0 tracer0 ctx8 "z").1 (by decide),
   (c8_monotonic_presence initRegistry gen0 tracer0 ctx8 "z").2 (by decide)⟩

/-- Claim C9: ExistProtocol equals the found component of
TryGetByProtocol at the wildcard protocol any in both variants, and it is
a fixed behavior: it depends on the registry or tracer only through the
mapping of the protocol any, not on any other registered protocol. -/
theorem c9_existProtocol_fixed (r r2 : Registry) (t t2 : Tracer) (c : Ctx) :
    existProtocol r c = (tryGetByProtocol r c ProtocolAny).2 ∧
    Tracer.existProtocol t c = (Tracer.tryGetByProtocol t c ProtocolAny).2 ∧
    (lookupKey r.keys ProtocolAny = lookupKey r2.keys ProtocolAny →
      existProtocol r c = existProtocol r2 c) ∧
    (lookupKey t.keys ProtocolAny = lookupKey t2.keys ProtocolAny →
      Tracer.existProtocol t c = Tracer.existProtocol t2 c) := by
  refine ⟨rfl, rfl, ?_, ?_⟩
  · intro h
    simp [existProtocol, tryGetByProtocol, h]
  · intro h
    simp [Tracer.existProtocol, Tracer.tryGetByProtocol, h]

/-- Witness for claim C9: the equations at concrete inputs, and the
invariance under registering the unrelated http protocol. -/
theorem c9_witness :
    existProtocol initRegistry [] = (tryGetByProtocol initRegistry [] ProtocolAny).2 ∧
    Tracer.existProtocol tracer0 [] = (Tracer.tryGetByProtocol tracer0 [] ProtocolAny).2 ∧
    existProtocol initRegistry [] = existProtocol registry1 [] ∧
    Tracer.existProtocol tracer0 [] = Tracer.existProtocol tracer2 [] :=
  ⟨(c9_existProtocol_fixed initRegistry registry1 tracer0 tracer2 []).1,
   (c9_existProtocol_fixed initRegistry registry1 tracer0 tracer2 []).2.1,
   (c9_existProtocol_fixed initRegistry registry1 tracer0 tracer2 []).2.2.1 (by decide),
   (c9_existProtocol_fixed initRegistry registry1 tracer0 tracer2 []).2.2.2 (by decide)⟩

/-- Claim C10: in the package-level variant, whenever TryGet reports
found the identifier is non-empty; Get returns the empty string exactly
when TryGet reports not-found; and a registered key holding the empty
string is skipped by the scan rather than reported. -/
theorem c10_found_nonempty (r : Registry) (c : Ctx) :
    ((tryGet r c).2 = true → (tryGet r c).1 ≠ "") ∧
    (get r c = "" ↔ (tryGet r c).2 = false) ∧
    (∀ p k rest, ctxValue c (CtxKey.strKey k) = some (GoVal.str "") →
      tryGetLoop ((p, k) :: rest) c = tryGetLoop rest c) := by
  refine ⟨tryGetLoop_found_ne r.keys c, ⟨?_, ?_⟩, ?_⟩
  · intro hget
    cases hb : (tryGet r c).2 with
    | false => rfl
    | true => exact absurd hget (tryGetLoop_found_ne r.keys c hb)
  · intro h
    exact tryGetLoop_not_found r.keys c h
  · intro p k rest hv
    simp [tryGetLoop, hv, convertString]

/-- A carrier holding the empty string under the first registered key of
registry1 and a real identifier under the second. -/
def ctx10 : Ctx :=
  [(CtxKey.strKey "trace_id", GoVal.str ""), (CtxKey.strKey "k2", GoVal.str "x")]

/-- Witness for claim C10: on a carrier where TryGet finds x past an
empty-string key, the identifier is non-empty, the Get equation holds,
and the empty-string key is skipped by the scan. -/
theorem c10_witness :
    (tryGet registry1 ctx10).1 ≠ "" ∧
    (get registry1 ctx10 = "" ↔ (tryGet registry1 ctx10).2 = false) ∧
    tryGetLoop [("any", "trace_id"), ("http", "k2")] ctx10 = tryGetLoop [("http", "k2")] ctx10 :=
  ⟨(c10_found_nonempty registry1 ctx10).1 (by decide),
   (c10_found_nonempty registry1 ctx10).2.1,
   (c10_found_nonempty registry1 ctx10).2.2 "any" "trace_id" [("http", "k2")] (by decide)⟩

end Trace
